import Mathlib

set_option autoImplicit false

/-!
Verification of the trip-advisor repository: a shallow embedding of
`core/agent.py`, `core/tools.py` and `advisor.py`.

The embedding models Python values and effects explicitly:
* JSON documents (as produced by `json.loads`) are the inductive `Json`;
  the decoder itself is a parameter `jdec` of the agent task runner, and
  `jsonParse` is a concrete executable decoder used to evaluate theorems
  on concrete inputs.
* Python exceptions are `Except PyErr`.
* The tool-descriptor dictionaries mutated by `Agent.__init__` live in an
  explicit heap (`Store`), so that shallow copies and in-place `pop` keep
  their Python aliasing behaviour and frame properties are meaningful.
* The remote completion client is modelled by canned responses, and the
  task runner additionally returns the list of completion requests it
  issued, in order.
-/

/-- JSON values as produced by the Python `json.loads` decoder (numbers
restricted to integers, which covers every value exchanged in this
repository). -/
inductive Json where
  | null
  | bool (b : Bool)
  | num (n : Int)
  | str (s : String)
  | arr (elems : List Json)
  | obj (fields : List (String × Json))
  deriving Repr

/-- Skip blanks, as a JSON tokenizer does between tokens. -/
def skipWs : List Char → List Char
  | c :: cs => if c = ' ' ∨ c = '\n' ∨ c = '\t' ∨ c = '\r' then skipWs cs else c :: cs
  | [] => []

/-- Read a run of decimal digits, accumulating into `acc`. -/
def readDigits (acc : Nat) : List Char → Nat × List Char
  | c :: cs => if c.isDigit then readDigits (acc * 10 + (c.toNat - 48)) cs else (acc, c :: cs)
  | [] => (acc, [])

/-- Read the rest of a quoted string literal (escape sequences rejected;
none of the strings handled in this development contain them). -/
def readStr (acc : List Char) : List Char → Option (String × List Char)
  | '"' :: cs => some (String.mk acc.reverse, cs)
  | '\\' :: _ => none
  | c :: cs => readStr (c :: acc) cs
  | [] => none

mutual

/-- Parse one JSON value (fuel-indexed recursive descent). -/
def parseVal : Nat → List Char → Option (Json × List Char)
  | 0, _ => none
  | fuel + 1, cs =>
    match skipWs cs with
    | 'n' :: 'u' :: 'l' :: 'l' :: rest => some (.null, rest)
    | 't' :: 'r' :: 'u' :: 'e' :: rest => some (.bool true, rest)
    | 'f' :: 'a' :: 'l' :: 's' :: 'e' :: rest => some (.bool false, rest)
    | '"' :: rest => (readStr [] rest).map fun p => (.str p.1, p.2)
    | '-' :: c :: rest =>
        if c.isDigit then
          let p := readDigits (c.toNat - 48) rest
          some (.num (-(p.1 : Int)), p.2)
        else none
    | '\x5b' :: rest =>
        (match skipWs rest with
         | '\x5d' :: r => some (.arr [], r)
         | r => parseElems fuel r [])
    | '\x7b' :: rest =>
        (match skipWs rest with
         | '\x7d' :: r => some (.obj [], r)
         | r => parseFields fuel r [])
    | c :: rest =>
        if c.isDigit then
          let p := readDigits (c.toNat - 48) rest
          some (.num (p.1 : Int), p.2)
        else none
    | [] => none

/-- Parse the elements of a JSON array after the opening bracket. -/
def parseElems : Nat → List Char → List Json → Option (Json × List Char)
  | 0, _, _ => none
  | fuel + 1, cs, acc =>
    match parseVal fuel cs with
    | some (v, r) =>
        (match skipWs r with
         | ',' :: r2 => parseElems fuel r2 (acc ++ [v])
         | '\x5d' :: r2 => some (.arr (acc ++ [v]), r2)
         | _ => none)
    | none => none

/-- Parse the fields of a JSON object after the opening brace. -/
def parseFields : Nat → List Char → List (String × Json) → Option (Json × List Char)
  | 0, _, _ => none
  | fuel + 1, cs, acc =>
    match skipWs cs with
    | '"' :: r =>
        (match readStr [] r with
         | some (k, r2) =>
             (match skipWs r2 with
              | ':' :: r3 =>
                  (match parseVal fuel r3 with
                   | some (v, r4) =>
                       (match skipWs r4 with
                        | ',' :: r5 => parseFields fuel r5 (acc ++ [(k, v)])
                        | '\x7d' :: r5 => some (.obj (acc ++ [(k, v)]), r5)
                        | _ => none)
                   | none => none)
              | _ => none)
         | none => none)
    | _ => none

end

/-- Executable model of `json.loads`: parse a whole document, requiring the
remainder to be blank. Returns `none` (a `json.JSONDecodeError`) on invalid
input. -/
def jsonParse (s : String) : Option Json :=
  match parseVal (s.length + 1) s.data with
  | some (v, r) => if skipWs r = [] then some v else none
  | none => none

/-- Python exceptions that the modelled code can raise. -/
inductive PyErr where
  | keyError (k : String)
  | typeError
  | jsonDecodeError (s : String)
  | stopIteration
  deriving Repr, DecidableEq

/-- Lookup in a string-keyed association list (Python `d.get(k)` /
`d[k]`, first entry wins; Python dicts never hold duplicate keys). -/
def alistGet {α : Type} (l : List (String × α)) (k : String) : Option α :=
  (l.find? (fun e => e.1 == k)).map (fun e => e.2)

/-- Python dict assignment `d[k] = v`: update the existing entry in place,
append a new entry otherwise. -/
def alistIns {α : Type} (l : List (String × α)) (k : String) (v : α) : List (String × α) :=
  if (l.find? (fun e => e.1 == k)).isSome
  then l.map (fun e => if e.1 == k then (k, v) else e)
  else l ++ [(k, v)]

/-- Removal of a key, as performed by Python `d.pop(k)`. -/
def alistDrop {α : Type} (l : List (String × α)) (k : String) : List (String × α) :=
  l.filter (fun e => e.1 != k)

/-- Python values stored in tool-descriptor dictionaries (`advisor.py`
lines 109-158, `test.py` lines 22-59): strings, nested dicts (the
"function" schema), the tool callable itself, and `None`. A callable models
the functions of `core/tools.py`: keyword arguments decoded from JSON in,
the raw response text out. -/
inductive PyVal where
  | vstr (s : String)
  | vdict (entries : List (String × PyVal))
  | vcallable (f : Json → String)
  | vnone

/-- A Python dict with string keys, insertion ordered. -/
abbrev Dict := List (String × PyVal)

/-- Python `d.get(k)` (also `d[k]`, where `none` models the `KeyError`). -/
def Dict.get (d : Dict) (k : String) : Option PyVal := alistGet d k

/-- Python `d[k] = v`. -/
def Dict.ins (d : Dict) (k : String) (v : PyVal) : Dict := alistIns d k v

/-- Python `d.pop(k)`: the removed value and the remaining dict, `none`
modelling the `KeyError` when the key is absent. -/
def Dict.pop (d : Dict) (k : String) : Option (PyVal × Dict) :=
  (Dict.get d k).map fun v => (v, alistDrop d k)

/-- The heap of descriptor dict objects: a Python object identity is an
index into this list. -/
structure Store where
  dicts : List Dict

/-- Dereference a dict object. -/
def Store.read (s : Store) (a : Nat) : Dict := s.dicts.getD a []

/-- Allocate a new dict object (Python `t.copy()` allocates). -/
def Store.alloc (s : Store) (d : Dict) : Store × Nat :=
  (⟨s.dicts ++ [d]⟩, s.dicts.length)

/-- Mutate a dict object in place (Python `t.pop(...)` mutates). -/
def Store.write (s : Store) (a : Nat) (d : Dict) : Store := ⟨s.dicts.set a d⟩

/-- The schema name of a descriptor: `tool["function"]["name"]`. -/
def descrName (d : Dict) : String :=
  match Dict.get d "function" with
  | some (.vdict fd) =>
      (match Dict.get fd "name" with
       | some (.vstr nm) => nm
       | _ => "")
  | _ => ""

/-- The callable of a descriptor: `tool["tool"]`. -/
def descrTool (d : Dict) : PyVal := (Dict.get d "tool").getD .vnone

/-- Executable well-formedness of a descriptor: it has a "tool" entry and a
"function" sub-dict with a string "name", as all four descriptors of this
repository do. -/
def descrWfb (d : Dict) : Bool :=
  (Dict.get d "tool").isSome &&
    match Dict.get d "function" with
    | some (.vdict fd) =>
        (match Dict.get fd "name" with
         | some (.vstr _) => true
         | _ => false)
    | _ => false

/-- A descriptor object after `pop("tool")`. -/
def stripTool (d : Dict) : Dict := alistDrop d "tool"

/-- The `available_functions` table determined by the descriptor contents
alone: the pure footprint of the registration loop. -/
def foldAvail (avail : Dict) : List Dict → Dict
  | [] => avail
  | d :: ds => foldAvail (Dict.ins avail (descrName d) (descrTool d)) ds

/-- `list(map(lambda t: t.copy(), tools))` in `Agent.__init__` (agent.py
line 19): allocate a fresh shallow copy of every descriptor before any
mutation happens (`list(map(...))` is evaluated eagerly, before the loop). -/
def copyTools (s : Store) : List Nat → Store × List Nat
  | [] => (s, [])
  | a :: as =>
      let p := Store.alloc s (Store.read s a)
      let q := copyTools p.1 as
      (q.1, p.2 :: q.2)

/-- The registration loop of `Agent.__init__` (agent.py lines 22-24): for
each copied descriptor, pop the "tool" callable out of the copy (the
right-hand side of the assignment is evaluated first) and record it in
`available_functions` under `tool["function"]["name"]`. -/
def registerTools (s : Store) (avail : Dict) : List Nat → Except PyErr (Store × Dict)
  | [] => .ok (s, avail)
  | b :: bs =>
      let d := Store.read s b
      match Dict.pop d "tool" with
      | some (tv, d2) =>
          (match Dict.get d2 "function" with
           | some (.vdict fd) =>
               (match Dict.get fd "name" with
                | some (.vstr nm) =>
                    registerTools (Store.write s b d2) (Dict.ins avail nm tv) bs
                | some _ => .error .typeError
                | none => .error (.keyError "name"))
           | some _ => .error .typeError
           | none => .error (.keyError "function"))
      | none => .error (.keyError "tool")

/-- What `Agent.__init__` builds from its tool descriptors: the copied
descriptor objects it keeps for completion requests, and the callable
table. -/
structure AgentCtor where
  toolAddrs : List Nat
  available_functions : Dict

/-- The tool-handling part of `Agent.__init__` (agent.py lines 19-24) over
the descriptor heap: copy each caller descriptor, then strip the "tool"
callable from each copy into `available_functions`. The `Agent` holds the
copies, never the caller's dicts. -/
def agentInitTools (s : Store) (toolAddrs : List Nat) : Except PyErr (Store × AgentCtor) :=
  let p := copyTools s toolAddrs
  (registerTools p.1 [] p.2).map fun q => (q.1, ⟨p.2, q.2⟩)

/-- A message as appended to `self.messages` (a dict with role and content
and, for tool results, the tool_call_id). -/
structure Msg where
  role : String
  content : String
  tool_call_id : Option String := none
  deriving Repr, DecidableEq

/-- One tool call of a completion response. -/
structure ToolCall where
  id : String
  name : String
  arguments : String
  deriving Repr, DecidableEq

/-- The message of one completion response: its content text and its tool
calls. Python `None` and the empty list are both modelled as `[]`; the
truthiness test on agent.py line 62 cannot distinguish them. -/
structure RespMessage where
  content : String
  tool_calls : List ToolCall
  deriving Repr, DecidableEq

/-- One completion request as issued to the client: the message list sent,
and whether the tool schemas were attached (`tools=` and `tool_choice=` are
passed on the first call only). -/
structure Req where
  messages : List Msg
  withTools : Bool
  deriving Repr, DecidableEq

/-- The value returned by `Agent.task`: the raw content string, or its JSON
decoding when `json_output` was requested. -/
inductive TaskResult where
  | text (s : String)
  | json (j : Json)
  deriving Repr

/-- The observable outcome of one `Agent.task` run: the returned value, the
final message list, and the completion requests issued, in order. -/
structure TaskRun where
  result : TaskResult
  messages : List Msg
  requests : List Req
  deriving Repr

/-- The agent state used by `Agent.task`: prompt metadata and the callable
table built by `Agent.__init__`. -/
structure Agent where
  role : Option String := none
  goal : Option String := none
  backstory : Option String := none
  available_functions : Dict := []

/-- Python truthiness of an optional string (`None` and `""` are falsy). -/
def strTruthy : Option String → Bool
  | none => false
  | some s => s != ""

/-- Python `str()` of an optional string, as an f-string interpolates it. -/
def fstr : Option String → String
  | none => "None"
  | some s => s

/-- Python truthiness of a dict value (`if function_to_call:` on
agent.py line 68). -/
def PyVal.truthy : PyVal → Bool
  | .vstr s => s != ""
  | .vdict d => !d.isEmpty
  | .vcallable _ => true
  | .vnone => false

/-- Python call `f(**args)`; calling a non-function raises `TypeError`. -/
def PyVal.call : PyVal → Json → Except PyErr String
  | .vcallable f, args => .ok (f args)
  | _, _ => .error .typeError

/-- `Agent.create_system_prompt` (agent.py lines 26-38): rebuild
`self.messages` as a single system message assembled from role, goal and
backstory. -/
def Agent.create_system_prompt (a : Agent) : List Msg :=
  let p1 := "You are an AI agent with the role of " ++ fstr a.role ++ ".\n"
  let p2 := if strTruthy a.goal then p1 ++ "Your goal is to " ++ fstr a.goal ++ ".\n" else p1
  let p3 := if strTruthy a.backstory
            then p2 ++ "Here is some context about you: " ++ fstr a.backstory ++ "\n"
            else p2
  [⟨"system",
    p3 ++ "Use the tools provided to assist the user with tasks and provide helpful responses.",
    none⟩]

/-- The message list at the moment the first completion request is issued:
the rebuilt system prompt plus the user message, with the JSON suffix when
`json_output` is set (agent.py lines 42-47). -/
def Agent.initialMsgs (a : Agent) (description : String) (json_output : Bool) : List Msg :=
  a.create_system_prompt ++
    [⟨"user", description ++ (if json_output then "\n\nPlease return JSON." else ""), none⟩]

/-- The tool-resolution loop of `Agent.task` (agent.py lines 62-75): for
each tool call, look its name up in `available_functions`, decode the JSON
argument string (`json.loads` raises on invalid JSON even when the name did
not resolve), and when the lookup is truthy invoke the callable and append
its raw output as a tool-role message. Unresolved names are skipped. -/
def Agent.resolveCalls (a : Agent) (jdec : String → Option Json) :
    List Msg → List ToolCall → Except PyErr (List Msg)
  | msgs, [] => .ok msgs
  | msgs, tc :: rest =>
      let function_to_call := Dict.get a.available_functions tc.name
      match jdec tc.arguments with
      | none => .error (.jsonDecodeError tc.arguments)
      | some function_args =>
          match function_to_call with
          | some fv =>
              if fv.truthy then
                match fv.call function_args with
                | .ok function_response =>
                    Agent.resolveCalls a jdec
                      (msgs ++ [⟨"tool", function_response, some tc.id⟩]) rest
                | .error e => .error e
              else Agent.resolveCalls a jdec msgs rest
          | none => Agent.resolveCalls a jdec msgs rest

/-- `Agent.task` (agent.py lines 40-86): rebuild the system prompt, append
the user message, issue the first completion request with tools attached,
resolve one round of tool calls, issue the second completion request with no
tools, and return the second response's content, JSON-decoded when
`json_output` is set (`json.loads` failures propagate). The completion
client is modelled by the canned responses `resp1` and `resp2`, and `jdec`
models `json.loads`. -/
def Agent.task (a : Agent) (jdec : String → Option Json) (resp1 resp2 : RespMessage)
    (description : String) (json_output : Bool) : Except PyErr TaskRun := do
  let msgs1 := a.initialMsgs description json_output
  let tool_calls := resp1.tool_calls
  let msgs2 ← if tool_calls.isEmpty then pure msgs1 else a.resolveCalls jdec msgs1 tool_calls
  let result ←
    if json_output then
      match jdec resp2.content with
      | some j => pure (TaskResult.json j)
      | none => Except.error (PyErr.jsonDecodeError resp2.content)
    else pure (TaskResult.text resp2.content)
  pure ⟨result, msgs2, [⟨msgs1, true⟩, ⟨msgs2, false⟩]⟩

/-- A document of the `sessions` collection, shaped as the dict inserted by
`Session.__init__` (advisor.py line 94). -/
structure SessDoc where
  session_id : String
  context : List Json
  options : List Json
  plan : Option Json
  deriving Repr

/-- Python `self.session.get(item)` on the session document dict. -/
def SessDoc.get (d : SessDoc) (item : String) : Option Json :=
  if item == "session_id" then some (.str d.session_id)
  else if item == "context" then some (.arr d.context)
  else if item == "options" then some (.arr d.options)
  else if item == "plan" then d.plan
  else none

/-- In-memory session object: the identifier and the fetched or freshly
created document. -/
structure Session where
  session_id : String
  session : SessDoc
  deriving Repr

/-- `Session.__init__` (advisor.py lines 87-95) over a model of the
`sessions` collection: with an identifier, `next(db.sessions.find(...))`
returns the first matching document or raises `StopIteration`; with none,
the generated `str(uuid.uuid4())` value `fresh` becomes the identifier and a
document with empty context, empty options and null plan is inserted. -/
def Session.init (db : List SessDoc) (sid : Option String) (fresh : String) :
    Except PyErr (Session × List SessDoc) :=
  match sid with
  | some s =>
      (match db.find? (fun d => d.session_id == s) with
       | some doc => .ok (⟨s, doc⟩, db)
       | none => .error .stopIteration)
  | none =>
      .ok (⟨fresh, ⟨fresh, [], [], none⟩⟩, db ++ [⟨fresh, [], [], none⟩])

/-- `Session.update` (advisor.py lines 97-99): the source calls
`db.sessions.update_one({"session_id": self.session_id})` with a filter but
no update document; pymongo's `update_one(filter, update, ...)` requires the
`update` argument, so the call raises `TypeError` before anything reaches
the database, and the collection is left as it was. -/
def Session.update (_st : Session) (_db : List SessDoc) :
    Except PyErr (Session × List SessDoc) := .error .typeError

/-- `Session.__getitem__` (advisor.py lines 101-102): the body evaluates
`self.session.get(item)` but has no return statement, so the computed value
is discarded and the method returns `None`. -/
def Session.getitem (st : Session) (item : String) : Option Json :=
  let _ := st.session.get item
  none

/-- The advisor's conversational state: `self.context` and `self.options`
(`none` is Python `None`). -/
structure AdvisorSt where
  context : Option Json
  options : Option Json
  deriving Repr

/-- The tail of `Advisor.__init__` (advisor.py lines 194-195):
`self.context = self.session["context"]` and
`self.options = self.session["options"]`, both read through
`Session.__getitem__`. -/
def Advisor.initState (st : Session) : AdvisorSt :=
  ⟨Session.getitem st "context", Session.getitem st "options"⟩

/-- Python `output[k]` on a JSON-decoded value (`none` models the KeyError,
or the TypeError when the subject is not a dict). -/
def Json.get (j : Json) (k : String) : Option Json :=
  match j with
  | .obj fields => alistGet fields k
  | _ => none

/-- Python `output[k] = v` on a JSON-decoded value (`TypeError` when the
subject is not a dict). -/
def Json.setItem (j : Json) (k : String) (v : Json) : Except PyErr Json :=
  match j with
  | .obj fields => .ok (.obj (alistIns fields k v))
  | _ => .error .typeError

/-- `Advisor.context_analyze` (advisor.py lines 197-274) with the analyzer
agent's task outcome supplied as the oracle `out` (the JSON-decoded
completion answer; task errors propagate): store `output["user_context"]`
into `self.context` — replacing the field — and return the output. -/
def Advisor.context_analyze (st : AdvisorSt) (out : Except PyErr Json) :
    Except PyErr (AdvisorSt × Json) := do
  let o ← out
  match o.get "user_context" with
  | some uc => pure ({st with context := some uc}, o)
  | none => Except.error (PyErr.keyError "user_context")

/-- `Advisor.chat` (advisor.py lines 447-457) with the three agents' task
outcomes supplied as oracles (`ctxOut`, `recOut` and `planOut` are the
JSON-decoded answers of the context analyzer, the recommender and the
planner; errors propagate as in the source): append `options` when given
(`self.options += options` raises `TypeError` when `self.options` is not a
list — and it is `None` after `Advisor.__init__`), run context analysis,
attach the recommendation under "recommendation", and attach the planning
output under "planning" inside a bare try/except that discards any
failure. -/
def Advisor.chat (st : AdvisorSt) (opts : Option (List Json))
    (ctxOut recOut planOut : Except PyErr Json) :
    Except PyErr (AdvisorSt × Json) := do
  let st1 ←
    match opts with
    | none => pure st
    | some os =>
        (match st.options with
         | some (.arr cur) => pure {st with options := some (.arr (cur ++ os))}
         | _ => Except.error PyErr.typeError)
  let p ← Advisor.context_analyze st1 ctxOut
  let r ← recOut
  let output2 ← p.2.setItem "recommendation" r
  let output3 :=
    match planOut.bind (fun pl => output2.setItem "planning" pl) with
    | .ok o => o
    | .error _ => output2
  pure (p.1, output3)

/-- A concrete agent with one registered tool, used to evaluate theorems on
concrete runs. -/
def weatherAgent : Agent :=
  { available_functions := [("weather_info", PyVal.vcallable (fun _ => "sunny, 25C"))] }

/-- A concrete descriptor heap holding the advisor's two tool descriptors
(advisor.py lines 109-158), the callables modelled as fixed response texts
since `core/tools.py` returns `response.text` verbatim. -/
def advisorToolHeap : Store :=
  ⟨[[("tool", .vcallable (fun _ => "map search results")),
     ("type", .vstr "function"),
     ("function", .vdict [("name", .vstr "map_search_api")])],
    [("tool", .vcallable (fun _ => "google search results")),
     ("type", .vstr "function"),
     ("function", .vdict [("name", .vstr "google_search_api")])]]⟩

theorem alistGet_cons_pos {α : Type} (e : String × α) (l : List (String × α))
    (k : String) (h : (e.1 == k) = true) : alistGet (e :: l) k = some e.2 := by
  unfold alistGet
  rw [List.find?_cons_of_pos (p := fun e => e.1 == k) l h]
  rfl

theorem alistGet_cons_neg {α : Type} (e : String × α) (l : List (String × α))
    (k : String) (h : (e.1 == k) = false) : alistGet (e :: l) k = alistGet l k := by
  unfold alistGet
  rw [List.find?_cons_of_neg (p := fun e => e.1 == k) l (by simp [h])]

theorem alistGet_mapIns {α : Type} (l : List (String × α)) (k : String) (v : α)
    (h : (l.find? (fun e => e.1 == k)).isSome = true) :
    alistGet (l.map (fun e => if e.1 == k then (k, v) else e)) k = some v := by
  induction l with
  | nil => simp at h
  | cons e es ih =>
      by_cases he : (e.1 == k) = true
      · rw [List.map_cons, if_pos he]
        exact alistGet_cons_pos _ _ _ (beq_self_eq_true k)
      · have he' : (e.1 == k) = false := by simpa using he
        rw [List.map_cons, if_neg (by simp [he'])]
        rw [alistGet_cons_neg _ _ _ he']
        rw [List.find?_cons_of_neg (p := fun e => e.1 == k) es (by simp [he'])] at h
        exact ih h

theorem alistGet_append_single {α : Type} (l : List (String × α)) (k : String) (v : α)
    (h : l.find? (fun e => e.1 == k) = none) :
    alistGet (l ++ [(k, v)]) k = some v := by
  unfold alistGet
  rw [List.find?_append, h, Option.none_or,
    List.find?_cons_of_pos (p := fun e => e.1 == k) (a := (k, v)) [] (by simp)]
  rfl

theorem alistGet_ins_self {α : Type} (l : List (String × α)) (k : String) (v : α) :
    alistGet (alistIns l k v) k = some v := by
  unfold alistIns
  split
  case isTrue h => exact alistGet_mapIns l k v h
  case isFalse h =>
    exact alistGet_append_single l k v (Option.not_isSome_iff_eq_none.mp h)

theorem alistGet_ins_ne {α : Type} (l : List (String × α)) (k : String) (v : α)
    (k' : String) (h : k' ≠ k) : alistGet (alistIns l k v) k' = alistGet l k' := by
  have hkk' : ((k : String) == k') = false := beq_eq_false_iff_ne.mpr fun hk => h hk.symm
  unfold alistIns
  split
  case isTrue hp =>
    clear hp
    induction l with
    | nil => rfl
    | cons e es ih =>
        by_cases he : (e.1 == k) = true
        · have he1 : e.1 = k := by simpa using he
          have he2 : (e.1 == k') = false := by rw [he1]; exact hkk'
          rw [List.map_cons, if_pos he]
          rw [alistGet_cons_neg _ _ _ hkk', alistGet_cons_neg _ _ _ he2]
          exact ih
        · have he' : (e.1 == k) = false := by simpa using he
          rw [List.map_cons, if_neg (by simp [he'])]
          by_cases he2 : (e.1 == k') = true
          · rw [alistGet_cons_pos _ _ _ he2, alistGet_cons_pos _ _ _ he2]
          · have he2' : (e.1 == k') = false := by simpa using he2
            rw [alistGet_cons_neg _ _ _ he2', alistGet_cons_neg _ _ _ he2']
            exact ih
  case isFalse hp =>
    unfold alistGet
    rw [List.find?_append,
      List.find?_cons_of_neg (p := fun e => e.1 == k') (a := (k, v)) [] (by simp [hkk']),
      List.find?_nil, Option.or_none]

theorem alistGet_drop_self {α : Type} (l : List (String × α)) (k : String) :
    alistGet (alistDrop l k) k = none := by
  induction l with
  | nil => rfl
  | cons e es ih =>
      unfold alistDrop
      rw [List.filter_cons]
      by_cases he : (e.1 == k) = true
      · rw [if_neg (by simp [bne, he])]
        exact ih
      · have he' : (e.1 == k) = false := by simpa using he
        rw [if_pos (by simp [bne, he'])]
        rw [alistGet_cons_neg _ _ _ he']
        exact ih

theorem alistGet_drop_ne {α : Type} (l : List (String × α)) (k k' : String)
    (h : k' ≠ k) : alistGet (alistDrop l k) k' = alistGet l k' := by
  induction l with
  | nil => rfl
  | cons e es ih =>
      unfold alistDrop
      rw [List.filter_cons]
      by_cases he : (e.1 == k) = true
      · have he1 : e.1 = k := by simpa using he
        have he2 : (e.1 == k') = false := by
          rw [he1]; exact beq_eq_false_iff_ne.mpr fun hk => h hk.symm
        rw [if_neg (by simp [bne, he]), alistGet_cons_neg _ _ _ he2]
        exact ih
      · have he' : (e.1 == k) = false := by simpa using he
        rw [if_pos (by simp [bne, he'])]
        by_cases he2 : (e.1 == k') = true
        · rw [alistGet_cons_pos _ _ _ he2, alistGet_cons_pos _ _ _ he2]
        · have he2' : (e.1 == k') = false := by simpa using he2
          rw [alistGet_cons_neg _ _ _ he2', alistGet_cons_neg _ _ _ he2']
          exact ih

theorem Store.length_write (s : Store) (a : Nat) (d : Dict) :
    (Store.write s a d).dicts.length = s.dicts.length := List.length_set s.dicts a d

theorem Store.read_write_ne (s : Store) (a b : Nat) (d : Dict) (h : b ≠ a) :
    Store.read (Store.write s a d) b = Store.read s b := by
  unfold Store.read Store.write
  rw [List.getD_eq_getElem?_getD, List.getD_eq_getElem?_getD,
    List.getElem?_set_ne (fun hh => h hh.symm)]

theorem Store.read_write_self (s : Store) (a : Nat) (d : Dict)
    (h : a < s.dicts.length) : Store.read (Store.write s a d) a = d := by
  unfold Store.read Store.write
  rw [List.getD_eq_getElem?_getD, List.getElem?_set_self',
    List.getElem?_eq_getElem h]
  rfl

theorem Store.read_extend (s : Store) (ext : List Dict) (a : Nat)
    (h : a < s.dicts.length) : Store.read ⟨s.dicts ++ ext⟩ a = Store.read s a := by
  unfold Store.read
  rw [List.getD_eq_getElem?_getD, List.getD_eq_getElem?_getD,
    List.getElem?_append_left h]

theorem Store.read_concat (s : Store) (d : Dict) :
    Store.read ⟨s.dicts ++ [d]⟩ s.dicts.length = d := by
  unfold Store.read
  rw [List.getD_eq_getElem?_getD, List.getElem?_concat_length]
  rfl

/-- C1: for a first completion response containing exactly one tool call
whose name is registered to a callable in the agent's callable table,
`Agent.task` invokes that callable exactly once with the JSON-decoded
arguments and appends its raw output as the single tool-role message, which
the second completion request already carries. -/
theorem C1_tool_call_resolved (a : Agent) (jdec : String → Option Json)
    (resp1 resp2 : RespMessage) (d : String) (tc : ToolCall)
    (f : Json → String) (args : Json)
    (h1 : resp1.tool_calls = [tc])
    (h2 : Dict.get a.available_functions tc.name = some (.vcallable f))
    (h3 : jdec tc.arguments = some args) :
    Agent.task a jdec resp1 resp2 d false =
      .ok ⟨.text resp2.content,
           a.initialMsgs d false ++ [⟨"tool", f args, some tc.id⟩],
           [⟨a.initialMsgs d false, true⟩,
            ⟨a.initialMsgs d false ++ [⟨"tool", f args, some tc.id⟩], false⟩]⟩ := by
  unfold Agent.task
  rw [h1]
  simp [Agent.resolveCalls, h2, h3, PyVal.truthy, PyVal.call, bind, Except.bind,
    pure, Except.pure]

/-- Witness for C1: a concrete run in which the registered callable's output
becomes the tool message and reaches the second request. -/
theorem C1_witness :
    Agent.task weatherAgent jsonParse
        ⟨"", [⟨"call_1", "weather_info", "\x7b\"city\": \"Paris\"\x7d"⟩]⟩
        ⟨"It is sunny in Paris.", []⟩ "What is the weather in Paris?" false =
      .ok ⟨.text "It is sunny in Paris.",
           weatherAgent.initialMsgs "What is the weather in Paris?" false ++
             [⟨"tool", "sunny, 25C", some "call_1"⟩],
           [⟨weatherAgent.initialMsgs "What is the weather in Paris?" false, true⟩,
            ⟨weatherAgent.initialMsgs "What is the weather in Paris?" false ++
               [⟨"tool", "sunny, 25C", some "call_1"⟩], false⟩]⟩ :=
  C1_tool_call_resolved weatherAgent jsonParse
    ⟨"", [⟨"call_1", "weather_info", "\x7b\"city\": \"Paris\"\x7d"⟩]⟩
    ⟨"It is sunny in Paris.", []⟩ "What is the weather in Paris?"
    ⟨"call_1", "weather_info", "\x7b\"city\": \"Paris\"\x7d"⟩
    (fun _ => "sunny, 25C") (Json.obj [("city", Json.str "Paris")])
    rfl rfl rfl

theorem initialMsgs_roles (a : Agent) (d : String) (jo : Bool) :
    ∀ m ∈ a.initialMsgs d jo, m.role = "system" ∨ m.role = "user" := by
  intro m hm
  rcases List.mem_append.mp hm with h | h
  · left
    rw [Agent.create_system_prompt] at h
    simp at h
    rw [h]
  · right
    simp at h
    rw [h]

/-- Counterexample to C2 as stated: a first response whose single tool call
names an unregistered tool can still raise, because `json.loads` runs on the
call's argument string before the lookup result is tested; with an invalid
argument string, `Agent.task` fails instead of completing. -/
theorem C2_counterexample :
    Dict.get ({} : Agent).available_functions "missing_tool" = none ∧
    Agent.task {} jsonParse ⟨"", [⟨"call_7", "missing_tool", "definitely not json"⟩]⟩
        ⟨"done", []⟩ "hello" false =
      .error (.jsonDecodeError "definitely not json") := ⟨rfl, rfl⟩

/-- C2, amended: for a first completion response containing one tool call
whose name is not registered, provided the call's argument string is valid
JSON, `Agent.task` completes without raising and appends no tool-result
message for that call (the final message list has no tool-role message). -/
theorem C2_unresolved_skipped (a : Agent) (jdec : String → Option Json)
    (resp1 resp2 : RespMessage) (d : String) (tc : ToolCall) (args : Json)
    (h1 : resp1.tool_calls = [tc])
    (h2 : Dict.get a.available_functions tc.name = none)
    (h3 : jdec tc.arguments = some args) :
    Agent.task a jdec resp1 resp2 d false =
      .ok ⟨.text resp2.content, a.initialMsgs d false,
           [⟨a.initialMsgs d false, true⟩, ⟨a.initialMsgs d false, false⟩]⟩ ∧
    ∀ m ∈ a.initialMsgs d false, m.role ≠ "tool" := by
  constructor
  · unfold Agent.task
    rw [h1]
    simp [Agent.resolveCalls, h2, h3, bind, Except.bind, pure, Except.pure]
  · intro m hm
    rcases initialMsgs_roles a d false m hm with h | h <;> simp [h]

/-- Witness for C2 (amended): a concrete unregistered tool call with valid
argument JSON is skipped silently and no tool message is emitted. -/
theorem C2_witness :
    Agent.task {} jsonParse ⟨"", [⟨"call_7", "missing_tool", "\x7b\"q\": 1\x7d"⟩]⟩
        ⟨"done", []⟩ "hello" false =
      .ok ⟨.text "done", Agent.initialMsgs {} "hello" false,
           [⟨Agent.initialMsgs {} "hello" false, true⟩,
            ⟨Agent.initialMsgs {} "hello" false, false⟩]⟩ ∧
    ∀ m ∈ Agent.initialMsgs {} "hello" false, m.role ≠ "tool" :=
  C2_unresolved_skipped {} jsonParse ⟨"", [⟨"call_7", "missing_tool", "\x7b\"q\": 1\x7d"⟩]⟩
    ⟨"done", []⟩ "hello" ⟨"call_7", "missing_tool", "\x7b\"q\": 1\x7d"⟩
    (Json.obj [("q", Json.num 1)]) rfl rfl rfl

/-- C3: `Agent.task` performs exactly one round of tool resolution and
issues exactly one second completion request, with no tools attached: the
outcome is independent of tool calls in the second response, every
successful run issues exactly the two requests with tools attached only to
the first, and with zero tool calls in the first response the returned
value is the second response's content unchanged when `json_output` is
false. -/
theorem C3_single_round (a : Agent) (jdec : String → Option Json)
    (resp1 resp2 : RespMessage) (d : String) (jo : Bool) :
    (∀ tcs, Agent.task a jdec resp1 ⟨resp2.content, tcs⟩ d jo =
        Agent.task a jdec resp1 resp2 d jo) ∧
    (∀ run, Agent.task a jdec resp1 resp2 d jo = .ok run →
        run.requests.map Req.withTools = [true, false]) ∧
    (resp1.tool_calls = [] →
        Agent.task a jdec resp1 resp2 d false =
          .ok ⟨.text resp2.content, a.initialMsgs d false,
               [⟨a.initialMsgs d false, true⟩, ⟨a.initialMsgs d false, false⟩]⟩) := by
  refine ⟨fun tcs => rfl, ?_, ?_⟩
  · intro run h
    unfold Agent.task at h
    simp only [bind, Except.bind, pure, Except.pure] at h
    repeat' split at h
    all_goals cases h
    all_goals rfl
  · intro h
    unfold Agent.task
    rw [h]
    simp [bind, Except.bind, pure, Except.pure]

/-- Witness for C3: a zero-tool-call first response yields the second
response's content unchanged, and a tool call carried by the second
response is left unresolved. -/
theorem C3_witness :
    Agent.task {} jsonParse ⟨"hi", []⟩ ⟨"answer", [⟨"x", "y", "z"⟩]⟩ "question" false =
      .ok ⟨.text "answer", Agent.initialMsgs {} "question" false,
           [⟨Agent.initialMsgs {} "question" false, true⟩,
            ⟨Agent.initialMsgs {} "question" false, false⟩]⟩ :=
  (C3_single_round {} jsonParse ⟨"hi", []⟩ ⟨"answer", [⟨"x", "y", "z"⟩]⟩
    "question" false).2.2 rfl

theorem Agent.task_eq (a : Agent) (jdec : String → Option Json)
    (resp1 resp2 : RespMessage) (d : String) (jo : Bool) (msgs2 : List Msg)
    (h : a.resolveCalls jdec (a.initialMsgs d jo) resp1.tool_calls = .ok msgs2) :
    Agent.task a jdec resp1 resp2 d jo =
      if jo then
        (match jdec resp2.content with
         | some j => .ok ⟨.json j, msgs2, [⟨a.initialMsgs d jo, true⟩, ⟨msgs2, false⟩]⟩
         | none => .error (.jsonDecodeError resp2.content))
      else .ok ⟨.text resp2.content, msgs2, [⟨a.initialMsgs d jo, true⟩, ⟨msgs2, false⟩]⟩ := by
  unfold Agent.task
  cases hc : resp1.tool_calls with
  | nil =>
      rw [hc] at h
      simp only [Agent.resolveCalls] at h
      injection h with h2
      subst h2
      cases jo <;> cases hj : jdec resp2.content <;>
        simp [bind, Except.bind, pure, Except.pure, hj]
  | cons t ts =>
      rw [hc] at h
      cases jo <;> cases hj : jdec resp2.content <;>
        simp [h, bind, Except.bind, pure, Except.pure, hj]

/-- Counterexample to C4 as stated: with `json_output` set and perfectly
valid second-response content, `Agent.task` still fails with a JSON parse
error when a tool call's argument string is invalid JSON, so failing with a
parse error is not equivalent to the final content being invalid. -/
theorem C4_counterexample :
    Agent.task weatherAgent jsonParse ⟨"", [⟨"call_2", "weather_info", "oops"⟩]⟩
        ⟨"null", []⟩ "q" true = .error (.jsonDecodeError "oops") ∧
    jsonParse "null" = some Json.null := ⟨rfl, rfl⟩

/-- C4, amended: provided the tool-resolution phase completes without
error, `Agent.task` with `json_output` returns the JSON-decoding of the
second response's content, and fails with a JSON parse error — propagated
to the caller, not recovered — exactly when that content is not valid
JSON. -/
theorem C4_json_output (a : Agent) (jdec : String → Option Json)
    (resp1 resp2 : RespMessage) (d : String) (msgs2 : List Msg)
    (h : a.resolveCalls jdec (a.initialMsgs d true) resp1.tool_calls = .ok msgs2) :
    (∀ j, jdec resp2.content = some j →
        Agent.task a jdec resp1 resp2 d true =
          .ok ⟨.json j, msgs2, [⟨a.initialMsgs d true, true⟩, ⟨msgs2, false⟩]⟩) ∧
    (jdec resp2.content = none →
        Agent.task a jdec resp1 resp2 d true = .error (.jsonDecodeError resp2.content)) := by
  constructor
  · intro j hj
    rw [Agent.task_eq a jdec resp1 resp2 d true msgs2 h]
    simp [hj]
  · intro hn
    rw [Agent.task_eq a jdec resp1 resp2 d true msgs2 h]
    simp [hn]

/-- Witness for C4 (amended): with no tool calls, valid JSON content is
returned decoded, and invalid content fails with the parse error. -/
theorem C4_witness :
    Agent.task {} jsonParse ⟨"", []⟩ ⟨"\x7b\"a\": 1\x7d", []⟩ "q" true =
      .ok ⟨.json (Json.obj [("a", Json.num 1)]), Agent.initialMsgs {} "q" true,
           [⟨Agent.initialMsgs {} "q" true, true⟩,
            ⟨Agent.initialMsgs {} "q" true, false⟩]⟩ ∧
    Agent.task {} jsonParse ⟨"", []⟩ ⟨"not json at all", []⟩ "q" true =
      .error (.jsonDecodeError "not json at all") :=
  ⟨(C4_json_output {} jsonParse ⟨"", []⟩ ⟨"\x7b\"a\": 1\x7d", []⟩ "q"
      (Agent.initialMsgs {} "q" true) rfl).1 (Json.obj [("a", Json.num 1)]) rfl,
   (C4_json_output {} jsonParse ⟨"", []⟩ ⟨"not json at all", []⟩ "q"
      (Agent.initialMsgs {} "q" true) rfl).2 rfl⟩

theorem Json.get_some_obj {j : Json} {k : String} {v : Json}
    (h : j.get k = some v) :
    ∃ fields, j = .obj fields ∧ alistGet fields k = some v := by
  cases j with
  | obj fields => exact ⟨fields, rfl, h⟩
  | null => simp [Json.get] at h
  | bool b => simp [Json.get] at h
  | num n => simp [Json.get] at h
  | str s => simp [Json.get] at h
  | arr elems => simp [Json.get] at h

/-- Counterexample to C5 as stated: one successful `Advisor.chat` turn
replaces the advisor's context with the analyzer's user_context output; the
prior context "A" is neither an element nor a prefix of the new context
"B", so the context field is not monotonically appended to. -/
theorem C5_counterexample :
    (Advisor.chat ⟨some (.str "A"), some (.arr [])⟩ none
        (.ok (.obj [("user_context", .str "B")])) (.ok (.obj []))
        (.error .typeError)).map (fun p => p.1.context) = .ok (some (.str "B")) ∧
    Json.str "A" ≠ Json.str "B" ∧
    ¬ List.IsPrefix "A".data "B".data :=
  ⟨rfl, by simp, by decide⟩

/-- C5, amended: for every `Advisor.chat` turn whose analyzer output
carries a user_context and whose prior options field holds a list, the
turn succeeds, the prior options list is a prefix of the new options list
(appended, never rewritten), and the context field is not appended to but
replaced by the analyzer output's user_context value for that turn. -/
theorem C5_options_append_context_replaced (st : AdvisorSt) (cur : List Json)
    (opts : Option (List Json)) (j uc r : Json) (planOut : Except PyErr Json)
    (hop : st.options = some (.arr cur))
    (hj : j.get "user_context" = some uc) :
    ∃ o, Advisor.chat st opts (.ok j) (.ok r) planOut =
        .ok (⟨some uc, some (.arr (cur ++ opts.getD []))⟩, o) ∧
      List.IsPrefix cur (cur ++ opts.getD []) := by
  have hpre : List.IsPrefix cur (cur ++ opts.getD []) := List.prefix_append _ _
  rcases Json.get_some_obj hj with ⟨fields, rfl, hfget⟩
  cases opts with
  | none =>
      cases planOut with
      | error e =>
          refine ⟨.obj (alistIns fields "recommendation" r), ?_, hpre⟩
          simp [Advisor.chat, Advisor.context_analyze, bind, Except.bind, pure,
            Except.pure, Json.get, hfget, Json.setItem, hop]
      | ok pl =>
          refine ⟨.obj (alistIns (alistIns fields "recommendation" r) "planning" pl),
            ?_, hpre⟩
          simp [Advisor.chat, Advisor.context_analyze, bind, Except.bind, pure,
            Except.pure, Json.get, hfget, Json.setItem, hop]
  | some os =>
      cases planOut with
      | error e =>
          refine ⟨.obj (alistIns fields "recommendation" r), ?_, hpre⟩
          simp [Advisor.chat, Advisor.context_analyze, bind, Except.bind, pure,
            Except.pure, Json.get, hfget, Json.setItem, hop]
      | ok pl =>
          refine ⟨.obj (alistIns (alistIns fields "recommendation" r) "planning" pl),
            ?_, hpre⟩
          simp [Advisor.chat, Advisor.context_analyze, bind, Except.bind, pure,
            Except.pure, Json.get, hfget, Json.setItem, hop]

/-- Witness for C5 (amended): a concrete turn appends the supplied option
to the prior options list and replaces the context. -/
theorem C5_witness :
    ∃ o, Advisor.chat ⟨none, some (.arr [Json.str "o1"])⟩ (some [Json.str "o2"])
        (.ok (.obj [("user_context", .str "ctx")])) (.ok (.obj []))
        (.error .typeError) =
      .ok (⟨some (Json.str "ctx"),
            some (.arr ([Json.str "o1"] ++ (some [Json.str "o2"]).getD []))⟩, o) ∧
      List.IsPrefix [Json.str "o1"] ([Json.str "o1"] ++ (some [Json.str "o2"]).getD []) :=
  C5_options_append_context_replaced ⟨none, some (.arr [Json.str "o1"])⟩ [Json.str "o1"]
    (some [Json.str "o2"]) (.obj [("user_context", .str "ctx")]) (.str "ctx") (.obj [])
    (.error .typeError) rfl rfl

/-- C6: an exception in the planning stage is swallowed inside
`Advisor.chat`: provided the earlier stages succeed (the analyzer output is
a dict with a user_context and without a "planning" key of its own, and
the options append is well-typed), the turn still returns a dict carrying
the context-analysis output together with the "recommendation" key, and the
returned dict has no "planning" key. -/
theorem C6_planning_failure_swallowed (st : AdvisorSt) (opts : Option (List Json))
    (fields : List (String × Json)) (uc r : Json) (e : PyErr)
    (hget : alistGet fields "user_context" = some uc)
    (hnop : alistGet fields "planning" = none)
    (hopts : opts = none ∨ ∃ os cur, opts = some os ∧ st.options = some (.arr cur)) :
    ∃ st2, Advisor.chat st opts (.ok (.obj fields)) (.ok r) (.error e) =
        .ok (st2, .obj (alistIns fields "recommendation" r)) ∧
      Json.get (.obj (alistIns fields "recommendation" r)) "recommendation" = some r ∧
      Json.get (.obj (alistIns fields "recommendation" r)) "planning" = none ∧
      ∀ k, k ≠ "recommendation" →
        Json.get (.obj (alistIns fields "recommendation" r)) k =
          Json.get (.obj fields) k := by
  have h3 : ∀ k, k ≠ "recommendation" →
      Json.get (.obj (alistIns fields "recommendation" r)) k =
        Json.get (.obj fields) k := by
    intro k hk
    simp [Json.get, alistGet_ins_ne _ _ _ _ hk]
  have h2 : Json.get (.obj (alistIns fields "recommendation" r)) "recommendation" =
      some r := by
    simp [Json.get, alistGet_ins_self]
  have h4 : Json.get (.obj (alistIns fields "recommendation" r)) "planning" = none := by
    rw [h3 "planning" (by decide)]
    simpa [Json.get] using hnop
  rcases hopts with rfl | ⟨os, cur, rfl, hcur⟩
  · exact ⟨⟨some uc, st.options⟩, by simp [Advisor.chat, Advisor.context_analyze,
      bind, Except.bind, pure, Except.pure, Json.get, hget, Json.setItem], h2, h4, h3⟩
  · exact ⟨⟨some uc, some (.arr (cur ++ os))⟩, by simp [Advisor.chat,
      Advisor.context_analyze, bind, Except.bind, pure, Except.pure, Json.get,
      hget, Json.setItem, hcur], h2, h4, h3⟩

/-- Witness for C6: a concrete turn whose planning stage raises still
returns the analysis output with the recommendation attached and no
planning key. -/
theorem C6_witness :
    ∃ st2, Advisor.chat ⟨none, none⟩ none
        (.ok (.obj [("user_context", .str "c"), ("following_question", .str "q")]))
        (.ok (.obj [("message", .str "opts")])) (.error .typeError) =
      .ok (st2, .obj (alistIns [("user_context", Json.str "c"),
            ("following_question", Json.str "q")] "recommendation"
            (.obj [("message", .str "opts")]))) ∧
      Json.get (.obj (alistIns [("user_context", Json.str "c"),
          ("following_question", Json.str "q")] "recommendation"
          (.obj [("message", .str "opts")]))) "recommendation" =
        some (.obj [("message", .str "opts")]) ∧
      Json.get (.obj (alistIns [("user_context", Json.str "c"),
          ("following_question", Json.str "q")] "recommendation"
          (.obj [("message", .str "opts")]))) "planning" = none ∧
      ∀ k, k ≠ "recommendation" →
        Json.get (.obj (alistIns [("user_context", Json.str "c"),
            ("following_question", Json.str "q")] "recommendation"
            (.obj [("message", .str "opts")]))) k =
          Json.get (.obj [("user_context", Json.str "c"),
            ("following_question", Json.str "q")]) k :=
  C6_planning_failure_swallowed ⟨none, none⟩ none
    [("user_context", Json.str "c"), ("following_question", Json.str "q")]
    (.str "c") (.obj [("message", .str "opts")]) .typeError rfl rfl (Or.inl rfl)

/-- C7: `Session.__init__` without an identifier uses the freshly generated
uuid4 string as identifier and inserts a document with empty context, empty
options and null plan — and when the generated identifier is genuinely
fresh, the stored document with that identifier is unique; with an
identifier, it returns the first matching document, and fails with
`StopIteration` (no not-found signaling) when none matches. -/
theorem C7_session_init (db : List SessDoc) (fresh s : String) :
    (Session.init db none fresh =
        .ok (⟨fresh, ⟨fresh, [], [], none⟩⟩, db ++ [⟨fresh, [], [], none⟩])) ∧
    ((∀ d ∈ db, d.session_id ≠ fresh) →
        ((db ++ [(⟨fresh, [], [], none⟩ : SessDoc)]).filter
            (fun d => d.session_id == fresh)).length = 1) ∧
    (∀ doc, db.find? (fun d => d.session_id == s) = some doc →
        Session.init db (some s) fresh = .ok (⟨s, doc⟩, db)) ∧
    (db.find? (fun d => d.session_id == s) = none →
        Session.init db (some s) fresh = .error .stopIteration) := by
  refine ⟨rfl, ?_, ?_, ?_⟩
  · intro hf
    rw [List.filter_append]
    have h1 : db.filter (fun d => d.session_id == fresh) = [] :=
      List.filter_eq_nil_iff.mpr (fun d hd => by simp [hf d hd])
    rw [h1]
    simp
  · intro doc hdoc
    simp [Session.init, hdoc]
  · intro hnone
    simp [Session.init, hnone]

/-- Witness for C7 on a concrete store: fresh creation and unique
insertion, fetch of an existing document, and the failure on a missing
identifier. -/
theorem C7_witness :
    (Session.init [⟨"a", [], [], none⟩] none "b" =
        .ok (⟨"b", ⟨"b", [], [], none⟩⟩, [⟨"a", [], [], none⟩, ⟨"b", [], [], none⟩])) ∧
    (([(⟨"a", [], [], none⟩ : SessDoc)] ++ [(⟨"b", [], [], none⟩ : SessDoc)]).filter
        (fun d => d.session_id == "b")).length = 1 ∧
    Session.init [⟨"a", [], [], none⟩] (some "a") "x" =
      .ok (⟨"a", ⟨"a", [], [], none⟩⟩, [⟨"a", [], [], none⟩]) ∧
    Session.init [⟨"a", [], [], none⟩] (some "zz") "x" = .error .stopIteration :=
  ⟨(C7_session_init [⟨"a", [], [], none⟩] "b" "a").1,
   (C7_session_init [⟨"a", [], [], none⟩] "b" "a").2.1
     (by intro d hd; simp at hd; rw [hd]; simp),
   (C7_session_init [⟨"a", [], [], none⟩] "x" "a").2.2.1 ⟨"a", [], [], none⟩ rfl,
   (C7_session_init [⟨"a", [], [], none⟩] "x" "zz").2.2.2 rfl⟩

/-- C8: evaluation at the failing input. `Session.update` on a session
whose in-memory document has been mutated raises `TypeError` — the source
calls pymongo's `update_one` without its required update document — and
persists nothing: re-fetching the session by its identifier still returns
the old stored document, which differs from the mutated in-memory one. -/
theorem C8_update_not_persisted :
    Session.update ⟨"s1", ⟨"s1", [Json.str "updated context"], [], none⟩⟩
        [⟨"s1", [], [], none⟩] = .error .typeError ∧
    Session.init [⟨"s1", [], [], none⟩] (some "s1") "unused" =
      .ok (⟨"s1", ⟨"s1", [], [], none⟩⟩, [⟨"s1", [], [], none⟩]) ∧
    ([Json.str "updated context"] : List Json) ≠ [] :=
  ⟨rfl, rfl, by simp⟩

/-- C9: `Session.__getitem__` returns `None` for every session and key —
the value computed by `get` is never returned — and consequently
`Advisor.__init__` initializes both its context and options fields to
`None` when reading the session through that accessor. -/
theorem C9_getitem_none (st : Session) (item : String) :
    Session.getitem st item = none ∧
    (Advisor.initState st).context = none ∧
    (Advisor.initState st).options = none :=
  ⟨rfl, rfl, rfl⟩

theorem descrWfb_elim {d : Dict} (h : descrWfb d = true) :
    ∃ tv fd nm, Dict.get d "tool" = some tv ∧
      Dict.get d "function" = some (.vdict fd) ∧
      Dict.get fd "name" = some (.vstr nm) := by
  unfold descrWfb at h
  rw [Bool.and_eq_true] at h
  obtain ⟨h1, h2⟩ := h
  obtain ⟨tv, htv⟩ := Option.isSome_iff_exists.mp h1
  split at h2
  next fd heq =>
    split at h2
    next nm heq2 => exact ⟨tv, fd, nm, htv, heq, heq2⟩
    next => simp at h2
  next => simp at h2

theorem descrName_eq {d : Dict} {fd : List (String × PyVal)} {nm : String}
    (hf : Dict.get d "function" = some (.vdict fd))
    (hn : Dict.get fd "name" = some (.vstr nm)) : descrName d = nm := by
  unfold descrName
  simp only [hf, hn]

theorem descrTool_eq {d : Dict} {tv : PyVal} (ht : Dict.get d "tool" = some tv) :
    descrTool d = tv := by
  unfold descrTool
  rw [ht]
  rfl

theorem copyTools_length (s : Store) (as : List Nat) :
    ((copyTools s as).1).dicts.length = s.dicts.length + as.length := by
  induction as generalizing s with
  | nil => rfl
  | cons b bs ih =>
      show ((copyTools (Store.alloc s (Store.read s b)).1 bs).1).dicts.length = _
      rw [ih]
      simp [Store.alloc]
      omega

theorem copyTools_read_low (s : Store) (as : List Nat) (a : Nat)
    (h : a < s.dicts.length) :
    Store.read (copyTools s as).1 a = Store.read s a := by
  induction as generalizing s with
  | nil => rfl
  | cons b bs ih =>
      show Store.read (copyTools (Store.alloc s (Store.read s b)).1 bs).1 a = _
      rw [ih _ (by simp [Store.alloc]; omega)]
      exact Store.read_extend s [Store.read s b] a h

theorem copyTools_snd (s : Store) (as : List Nat) :
    (copyTools s as).2 = List.range' s.dicts.length as.length := by
  induction as generalizing s with
  | nil => rfl
  | cons b bs ih =>
      show s.dicts.length :: (copyTools (Store.alloc s (Store.read s b)).1 bs).2 = _
      rw [ih]
      simp [Store.alloc, List.range'_succ]

theorem copyTools_reads (s : Store) (as : List Nat)
    (hv : ∀ a ∈ as, a < s.dicts.length) :
    ((copyTools s as).2).map (Store.read (copyTools s as).1) = as.map (Store.read s) := by
  induction as generalizing s with
  | nil => rfl
  | cons b bs ih =>
      have hb : b < s.dicts.length := hv b (List.mem_cons_self b bs)
      show (s.dicts.length :: (copyTools (Store.alloc s (Store.read s b)).1 bs).2).map
          (Store.read (copyTools (Store.alloc s (Store.read s b)).1 bs).1) = _
      rw [List.map_cons]
      have hhead : Store.read (copyTools (Store.alloc s (Store.read s b)).1 bs).1
          s.dicts.length = Store.read s b := by
        rw [copyTools_read_low _ _ _ (by simp [Store.alloc])]
        exact Store.read_concat s (Store.read s b)
      rw [hhead]
      rw [ih (Store.alloc s (Store.read s b)).1
        (fun a ha => by simp [Store.alloc]; exact Nat.lt_succ_of_lt (hv a (List.mem_cons_of_mem b ha)))]
      rw [List.map_cons]
      congr 1
      exact List.map_congr_left
        (fun a ha => Store.read_extend s [Store.read s b] a (hv a (List.mem_cons_of_mem b ha)))

theorem foldAvail_get_notmem (ds : List Dict) : ∀ (avail : Dict) (k : String),
    k ∉ ds.map descrName → Dict.get (foldAvail avail ds) k = Dict.get avail k := by
  induction ds with
  | nil => intro avail k _; rfl
  | cons d ds ih =>
      intro avail k hk
      have hk1 : k ≠ descrName d := fun h => hk (by simp [h])
      have hk2 : k ∉ ds.map descrName := fun h => hk (by simp; right; simpa using h)
      show Dict.get (foldAvail (Dict.ins avail (descrName d) (descrTool d)) ds) k = _
      rw [ih _ k hk2]
      exact alistGet_ins_ne _ _ _ _ hk1

theorem foldAvail_get_mem (ds : List Dict) : ∀ (avail : Dict) (d : Dict),
    d ∈ ds → (ds.map descrName).Nodup →
    Dict.get (foldAvail avail ds) (descrName d) = some (descrTool d) := by
  induction ds with
  | nil => intro _ _ h _; cases h
  | cons d0 ds ih =>
      intro avail d hd hnd
      have hnd2 : descrName d0 ∉ ds.map descrName ∧ (ds.map descrName).Nodup := by
        rw [List.map_cons] at hnd
        exact List.nodup_cons.mp hnd
      rcases List.mem_cons.mp hd with rfl | hd'
      · show Dict.get (foldAvail (Dict.ins avail (descrName d) (descrTool d)) ds)
            (descrName d) = _
        rw [foldAvail_get_notmem ds _ _ hnd2.1]
        exact alistGet_ins_self _ _ _
      · exact ih _ d hd' hnd2.2

theorem registerTools_spec (bs : List Nat) : ∀ (s : Store) (avail : Dict),
    bs.Nodup → (∀ b ∈ bs, b < s.dicts.length) →
    (∀ b ∈ bs, descrWfb (Store.read s b) = true) →
    ∃ s2, registerTools s avail bs = .ok (s2, foldAvail avail (bs.map (Store.read s))) ∧
      s2.dicts.length = s.dicts.length ∧
      (∀ a, a ∉ bs → Store.read s2 a = Store.read s a) ∧
      (∀ b ∈ bs, Store.read s2 b = stripTool (Store.read s b)) := by
  induction bs with
  | nil =>
      intro s avail _ _ _
      exact ⟨s, rfl, rfl, fun a _ => rfl, fun b hb => absurd hb (List.not_mem_nil b)⟩
  | cons b bs ih =>
      intro s avail hnd hlt hwf
      obtain ⟨hb_notin, hnd'⟩ := List.nodup_cons.mp hnd
      have hblt : b < s.dicts.length := hlt b (List.mem_cons_self b bs)
      obtain ⟨tv, fd, nm, htv, hf, hn⟩ := descrWfb_elim (hwf b (List.mem_cons_self b bs))
      have hpop : Dict.pop (Store.read s b) "tool" =
          some (tv, stripTool (Store.read s b)) := by
        simp [Dict.pop, htv, stripTool]
      have hf2 : Dict.get (stripTool (Store.read s b)) "function" =
          some (.vdict fd) := by
        rw [stripTool, Dict.get, alistGet_drop_ne _ _ _ (by decide)]
        exact hf
      have hstep : registerTools s avail (b :: bs) =
          registerTools (Store.write s b (stripTool (Store.read s b)))
            (Dict.ins avail nm tv) bs := by
        show (match Dict.pop (Store.read s b) "tool" with
              | some (tv, d2) =>
                  (match Dict.get d2 "function" with
                   | some (.vdict fd) =>
                       (match Dict.get fd "name" with
                        | some (.vstr nm) =>
                            registerTools (Store.write s b d2) (Dict.ins avail nm tv) bs
                        | some _ => .error .typeError
                        | none => .error (.keyError "name"))
                   | some _ => .error .typeError
                   | none => .error (.keyError "function"))
              | none => .error (.keyError "tool")) = _
        rw [hpop]
        simp only [hf2, hn]
      set s' := Store.write s b (stripTool (Store.read s b)) with hs'
      have hlen' : s'.dicts.length = s.dicts.length := Store.length_write s b _
      have hreads' : ∀ b' ∈ bs, Store.read s' b' = Store.read s b' := by
        intro b' hb'
        exact Store.read_write_ne s b b' _ (fun hEq => hb_notin (hEq ▸ hb'))
      obtain ⟨s2, hreg, hlen2, hother, hbs⟩ :=
        ih s' (Dict.ins avail nm tv) hnd'
          (fun b' hb' => hlen' ▸ hlt b' (List.mem_cons_of_mem b hb'))
          (fun b' hb' => (hreads' b' hb') ▸ hwf b' (List.mem_cons_of_mem b hb'))
      refine ⟨s2, ?_, by rw [hlen2, hlen'], ?_, ?_⟩
      · rw [hstep, hreg]
        have hmapeq : bs.map (Store.read s') = bs.map (Store.read s) :=
          List.map_congr_left hreads'
        rw [hmapeq]
        have hnmtv : Dict.ins avail nm tv =
            Dict.ins avail (descrName (Store.read s b)) (descrTool (Store.read s b)) := by
          rw [descrName_eq hf hn, descrTool_eq htv]
        rw [List.map_cons]
        show Except.ok (s2, foldAvail (Dict.ins avail nm tv) (bs.map (Store.read s))) = _
        rw [hnmtv]
        rfl
      · intro a ha
        have ha1 : a ≠ b := fun hEq => ha (hEq ▸ List.mem_cons_self b bs)
        have ha2 : a ∉ bs := fun hm => ha (List.mem_cons_of_mem b hm)
        rw [hother a ha2]
        exact Store.read_write_ne s b a _ ha1
      · intro b' hb'
        rcases List.mem_cons.mp hb' with rfl | hmem
        · rw [hother b' hb_notin]
          exact Store.read_write_self s b' _ hblt
        · rw [hbs b' hmem, hreads' b' hmem]

theorem agentInitTools_spec (s : Store) (as : List Nat)
    (hv : ∀ a ∈ as, a < s.dicts.length)
    (hwf : ∀ a ∈ as, descrWfb (Store.read s a) = true) :
    ∃ s2 ctor, agentInitTools s as = .ok (s2, ctor) ∧
      ctor.available_functions = foldAvail [] (as.map (Store.read s)) ∧
      s2.dicts.length = s.dicts.length + as.length ∧
      (∀ a, a < s.dicts.length → Store.read s2 a = Store.read s a) ∧
      (∀ b ∈ ctor.toolAddrs, Dict.get (Store.read s2 b) "tool" = none) := by
  have hsnd := copyTools_snd s as
  have hlen1 := copyTools_length s as
  have hreads := copyTools_reads s as hv
  have hlow : ∀ b ∈ (copyTools s as).2, s.dicts.length ≤ b := by
    intro b hb
    rw [hsnd] at hb
    obtain ⟨i, hi, rfl⟩ := List.mem_range'.mp hb
    omega
  have hhigh : ∀ b ∈ (copyTools s as).2, b < (copyTools s as).1.dicts.length := by
    intro b hb
    rw [hsnd] at hb
    obtain ⟨i, hi, rfl⟩ := List.mem_range'.mp hb
    rw [hlen1]
    omega
  have hnd : (copyTools s as).2.Nodup := by
    rw [hsnd]
    exact List.nodup_range' _ _
  have hwf1 : ∀ b ∈ (copyTools s as).2,
      descrWfb (Store.read (copyTools s as).1 b) = true := by
    intro b hb
    have hmem : Store.read (copyTools s as).1 b ∈ as.map (Store.read s) := by
      rw [← hreads]
      exact List.mem_map_of_mem _ hb
    obtain ⟨a, ha, heq⟩ := List.mem_map.mp hmem
    rw [← heq]
    exact hwf a ha
  obtain ⟨s2, hreg, hlen2, hother, hbs⟩ :=
    registerTools_spec (copyTools s as).2 (copyTools s as).1 [] hnd hhigh hwf1
  refine ⟨s2, ⟨(copyTools s as).2,
      foldAvail [] ((copyTools s as).2.map (Store.read (copyTools s as).1))⟩,
      ?_, ?_, ?_, ?_, ?_⟩
  · show ((registerTools (copyTools s as).1 [] (copyTools s as).2).map
        fun q => (q.1, AgentCtor.mk (copyTools s as).2 q.2)) = _
    rw [hreg]
    rfl
  · show foldAvail [] ((copyTools s as).2.map (Store.read (copyTools s as).1)) = _
    rw [hreads]
  · rw [hlen2, hlen1]
  · intro a ha
    have hna : a ∉ (copyTools s as).2 := fun hm => by
      have := hlow a hm
      omega
    rw [hother a hna]
    exact copyTools_read_low s as a ha
  · intro b hb
    rw [hbs b hb, stripTool]
    exact alistGet_drop_self _ _

/-- C10: `Agent.__init__` leaves every caller-supplied descriptor dict
unchanged — the callable under the "tool" key is popped only from the
Agent's own shallow copies — the descriptor objects the Agent keeps for
completion requests carry no "tool" key, `available_functions` maps each
schema name to the popped callable, and the very same descriptor objects
can be passed to a second Agent construction, which builds the same
callable table. -/
theorem C10_descriptors_not_mutated (s : Store) (as : List Nat)
    (hv : ∀ a ∈ as, a < s.dicts.length)
    (hwf : ∀ a ∈ as, descrWfb (Store.read s a) = true)
    (hnames : (as.map (fun a => descrName (Store.read s a))).Nodup) :
    ∃ s2 ctor, agentInitTools s as = .ok (s2, ctor) ∧
      (∀ a, a < s.dicts.length → Store.read s2 a = Store.read s a) ∧
      (∀ b ∈ ctor.toolAddrs, Dict.get (Store.read s2 b) "tool" = none) ∧
      (∀ a ∈ as, Dict.get ctor.available_functions (descrName (Store.read s a)) =
          Dict.get (Store.read s a) "tool") ∧
      ∃ s3 ctor2, agentInitTools s2 as = .ok (s3, ctor2) ∧
        ctor2.available_functions = ctor.available_functions := by
  obtain ⟨s2, ctor, heq, havail, hlen, hlowr, hnotool⟩ := agentInitTools_spec s as hv hwf
  have hkey : ∀ a ∈ as,
      Dict.get ctor.available_functions (descrName (Store.read s a)) =
        Dict.get (Store.read s a) "tool" := by
    intro a ha
    rw [havail]
    have hmem : Store.read s a ∈ as.map (Store.read s) := List.mem_map_of_mem _ ha
    have hnames2 : ((as.map (Store.read s)).map descrName).Nodup := by
      rw [List.map_map]
      exact hnames
    rw [foldAvail_get_mem (as.map (Store.read s)) [] (Store.read s a) hmem hnames2]
    obtain ⟨tv, fd, nm, htv, hf, hn⟩ := descrWfb_elim (hwf a ha)
    rw [descrTool_eq htv, htv]
  have hv2 : ∀ a ∈ as, a < s2.dicts.length := by
    intro a ha
    rw [hlen]
    exact Nat.lt_of_lt_of_le (hv a ha) (Nat.le_add_right _ _)
  have hwf2 : ∀ a ∈ as, descrWfb (Store.read s2 a) = true := by
    intro a ha
    rw [hlowr a (hv a ha)]
    exact hwf a ha
  obtain ⟨s3, ctor2, heq2, havail2, hx1, hx2, hx3⟩ := agentInitTools_spec s2 as hv2 hwf2
  refine ⟨s2, ctor, heq, hlowr, hnotool, hkey, s3, ctor2, heq2, ?_⟩
  rw [havail2, havail]
  congr 1
  exact List.map_congr_left (fun a ha => hlowr a (hv a ha))

/-- Witness for C10 on the advisor's two concrete tool descriptors,
including the reuse of the same descriptor objects by a second Agent
construction. -/
theorem C10_witness :
    ∃ s2 ctor, agentInitTools advisorToolHeap [0, 1] = .ok (s2, ctor) ∧
      (∀ a, a < advisorToolHeap.dicts.length →
        Store.read s2 a = Store.read advisorToolHeap a) ∧
      (∀ b ∈ ctor.toolAddrs, Dict.get (Store.read s2 b) "tool" = none) ∧
      (∀ a ∈ [0, 1], Dict.get ctor.available_functions
          (descrName (Store.read advisorToolHeap a)) =
          Dict.get (Store.read advisorToolHeap a) "tool") ∧
      ∃ s3 ctor2, agentInitTools s2 [0, 1] = .ok (s3, ctor2) ∧
        ctor2.available_functions = ctor.available_functions :=
  C10_descriptors_not_mutated advisorToolHeap [0, 1] (by decide) (by decide) (by decide)
